import Mathlib

/-! Verification development for the BioSurePitch dashboard.  It gives a
shallow embedding of the chat widget (the two handleSendMessage variants,
message labelling and the markdown-link preprocessing), of the PDF
response types, and of the document-synchronization, enrichment-chain and
intent-dispatch engine described in the system specification, together
with proofs of the specified properties. -/

/-- Does the list contain the character x?  Embedding of the JS test
`s.includes(c)` for a single character. -/
def hasChar (x : Char) : List Char → Bool
  | [] => false
  | c :: cs => if c = x then true else hasChar x cs

/-- Does pat occur at the very start of the second list?  Helper for
substring search. -/
def leadsList : List Char → List Char → Bool
  | [], _ => true
  | _ :: _, [] => false
  | p :: ps, c :: cs => if p = c then leadsList ps cs else false

/-- Does pat occur as a contiguous substring?  Embedding of the JS test
`s.includes(pat)`. -/
def containsList (pat : List Char) : List Char → Bool
  | [] => leadsList pat []
  | c :: cs => if leadsList pat (c :: cs) then true else containsList pat cs

/-- Split a list at the first occurrence of the character stop: the first
component is the maximal run of characters different from stop (the
regex fragment matched by a greedy negated character class), the second
is the remainder beginning with stop (or empty when stop is absent). -/
def takeNo (stop : Char) : List Char → List Char × List Char
  | [] => ([], [])
  | c :: cs =>
    if c = stop then ([], c :: cs)
    else (c :: (takeNo stop cs).1, (takeNo stop cs).2)

/-- Third stage of matching the regex of preprocessMessageContent,
`\[([^\]]+)\]\(([^)]+)\)`: after text and url are read, the next
character must be the closing parenthesis and the url must be nonempty. -/
def stage3 (t u : List Char) : List Char → Option (List Char × List Char × List Char)
  | [] => none
  | e :: rest => if e = ')' ∧ u ≠ [] then some (t, u, rest) else none

/-- Second stage of matching the regex of preprocessMessageContent: after
the link text is read, the next two characters must be the closing
bracket and the opening parenthesis, and the text must be nonempty. -/
def stage2 (t : List Char) : List Char → Option (List Char × List Char × List Char)
  | b :: p :: cs2 =>
    if b = ']' ∧ p = '(' ∧ t ≠ [] then
      stage3 t (takeNo ')' cs2).1 (takeNo ')' cs2).2
    else none
  | _ => none

/-- Attempt to match the body of a markdown link, the part after the
opening bracket, against the regex `([^\]]+)\]\(([^)]+)\)`.  Returns the
link text, the url and the remainder of the input. -/
def matchAfterBracket (cs : List Char) : Option (List Char × List Char × List Char) :=
  stage2 (takeNo ']' cs).1 (takeNo ']' cs).2

/-- Attempt to match a full markdown link `[text](url)` at the head of
the input, the way the JS regex `\[([^\]]+)\]\(([^)]+)\)` matches at a
given start position. -/
def matchLink : List Char → Option (List Char × List Char × List Char)
  | [] => none
  | c :: cs => if c = '[' then matchAfterBracket cs else none

/-- Replace every space by the three characters of the escape %20.
Embedding of `url.replace(/ /g, '%20')`. -/
def encodeSpaces : List Char → List Char
  | [] => []
  | c :: cs =>
    if c = ' ' then '%' :: '2' :: '0' :: encodeSpaces cs
    else c :: encodeSpaces cs

/-- The replacement callback of preprocessMessageContent applied to the
url part: when the url contains a space every space is rewritten to %20,
otherwise the url is kept as matched. -/
def fixUrl (url : List Char) : List Char :=
  if hasChar ' ' url = true then encodeSpaces url else url

/-- Fueled left-to-right scan that performs the global regex replacement
of preprocessMessageContent: at each position a markdown link match is
attempted; on a match the link is re-emitted with its url space-escaped
and scanning resumes after the match, otherwise one character is copied.
The fuel is an upper bound on the input length, so the zero-fuel row is
never reached on the inputs we use. -/
def scanGo : Nat → List Char → List Char
  | 0, l => l
  | _ + 1, [] => []
  | n + 1, c :: cs =>
    match matchLink (c :: cs) with
    | some (t, u, r) => '[' :: (t ++ ']' :: '(' :: (fixUrl u ++ ')' :: scanGo n r))
    | none => c :: scanGo n cs

/-- The global regex replacement of preprocessMessageContent on a list of
characters, run with exactly enough fuel. -/
def scanL (l : List Char) : List Char := scanGo l.length l

/-- Embedding of preprocessMessageContent from ChatWidget.tsx: fix
markdown links whose url part contains spaces by escaping each space to
%20, leaving everything else unchanged. -/
def preprocessMessageContent (s : String) : String := ⟨scanL s.data⟩

/-- Does the input contain a markdown link anywhere, that is, does the
regex of preprocessMessageContent match at some position? -/
def hasLink : List Char → Bool
  | [] => false
  | c :: cs => if (matchLink (c :: cs)).isSome then true else hasLink cs

/-- Fueled scan checking that every markdown link found left to right has
a space-free url. -/
def goodGo : Nat → List Char → Bool
  | 0, _ => true
  | _ + 1, [] => true
  | n + 1, c :: cs =>
    match matchLink (c :: cs) with
    | some (_, u, r) => if hasChar ' ' u = true then false else goodGo n r
    | none => goodGo n cs

/-- Every markdown link of the input has a space-free url part. -/
def linksSpaceFree (l : List Char) : Bool := goodGo l.length l

/-- Relation between a character list and a rewriting of it in which some
spaces have been replaced by the three characters of %20 and every other
character is kept; the output of preprocessMessageContent is such a
rewriting of its input, which is what makes a second pass find the same
link structure. -/
inductive Subst : List Char → List Char → Prop
  | nil : Subst [] []
  | keep (c : Char) {l m : List Char} : Subst l m → Subst (c :: l) (c :: m)
  | space {l m : List Char} : Subst l m → Subst (' ' :: l) ('%' :: '2' :: '0' :: m)

/-- Message author role of the chat widget. -/
inductive Role
  | user
  | bot
deriving DecidableEq, Repr

/-- Message category of the chat widget, driving the badge rendered above
a bot message: pdfResponse is the document-grounded label. -/
inductive MessageType
  | general
  | dataInsight
  | pdfResponse
deriving DecidableEq, Repr

/-- PDF source reference, as in types/pdf.ts and ChatWidget.tsx. -/
structure PDFSource where
  name : String
  file_id : String
deriving DecidableEq, Repr

/-- Chat message of the widget state. -/
structure ChatMessage where
  id : String
  role : Role
  content : String
  timestamp : Nat
  type : Option MessageType
  sources : Option (List PDFSource)
deriving DecidableEq, Repr

/-- The mutable React state of the chat widget that handleSendMessage
reads and writes. -/
structure ChatState where
  messages : List ChatMessage
  inputValue : String
  isLoading : Bool
  isPDFSearching : Bool
  sessionId : Option String
  error : Option String
deriving DecidableEq, Repr

/-- Body of the POST request sent to the chat endpoint. -/
structure ChatRequest where
  message : String
  session_id : Option String
deriving DecidableEq, Repr

/-- Payload of a chat API response: either a single response string or a
list of messages (the multi-message shape recognised by
isMultiMessageResponse). -/
inductive ChatPayload
  | single (response : String)
  | multi (messages : List String)
deriving DecidableEq, Repr

/-- Parsed chat API response body. -/
structure ChatResponseData where
  payload : ChatPayload
  session_id : String
  timestamp : Nat
  sources : Option (List PDFSource)
deriving DecidableEq, Repr

/-- Embedding of the JS truthiness test `data.sources &&
data.sources.length > 0`. -/
def hasSources : Option (List PDFSource) → Bool
  | none => false
  | some l => 0 < l.length

/-- After the leading digit of a numbered-list test, the regex
`^\d+\.\s` allows further digits, then a dot followed by whitespace. -/
def numberedAfterDigit : List Char → Bool
  | [] => false
  | c :: cs =>
    if c.isDigit then numberedAfterDigit cs
    else if c = '.' then
      match cs with
      | d :: _ => d.isWhitespace
      | [] => false
    else false

/-- Embedding of the regex test `^\d+\.\s`: at least one digit, a dot,
then a whitespace character. -/
def numberedStart : List Char → Bool
  | [] => false
  | c :: cs => c.isDigit && numberedAfterDigit cs

/-- Embedding of isDataInsight from ChatWidget.tsx: the content contains
a table bar, bold markers, or starts with a numbered-list item. -/
def isDataInsight (content : String) : Bool :=
  hasChar '|' content.data || containsList "**".data content.data
    || numberedStart content.data

/-- Keyword table of isPDFQuery in ChatWidget.tsx. -/
def pdfKeywords : List String :=
  ["research", "paper", "document", "guideline", "policy",
   "study", "literature", "publication", "according to"]

/-- Embedding of isPDFQuery: the lowercased message contains one of the
PDF keywords. -/
def isPDFQuery (message : String) : Bool :=
  pdfKeywords.any (fun k => containsList k.data message.toLower.data)

/-- Embedding of `const textToSend = messageText || inputValue.trim()`:
an absent or empty (falsy) explicit argument falls back to the trimmed
input value. -/
def resolveText (messageText : Option String) (inputValue : String) : String :=
  match messageText with
  | some t => if t = "" then inputValue.trim else t
  | none => inputValue.trim

/-- Synchronous phase of handleSendMessage in ChatWidget.tsx (part_008)
up to and including the issuing of the fetch: the guard, the state
updates before the request, and the request body.  Returns the state
after the synchronous updates and the request, if one is issued. -/
def sendPhase1 (st : ChatState) (messageText : Option String) (now : Nat) :
    ChatState × Option ChatRequest :=
  let textToSend := resolveText messageText st.inputValue
  if textToSend = "" ∨ st.isLoading = true then (st, none)
  else
    let userMessage : ChatMessage :=
      { id := toString now, role := Role.user, content := textToSend,
        timestamp := now, type := some MessageType.general, sources := none }
    ({ st with error := none,
               isPDFSearching := if isPDFQuery textToSend then true else st.isPDFSearching,
               messages := st.messages ++ [userMessage],
               inputValue := "",
               isLoading := true },
     some { message := textToSend, session_id := st.sessionId })

/-- Synchronous phase of the simpler handleSendMessage variant (part_007)
which takes no argument: the guard tests the trimmed input value. -/
def sendPhase1v7 (st : ChatState) (now : Nat) : ChatState × Option ChatRequest :=
  if st.inputValue.trim = "" ∨ st.isLoading = true then (st, none)
  else
    let userMessage : ChatMessage :=
      { id := toString now, role := Role.user, content := st.inputValue.trim,
        timestamp := now, type := none, sources := none }
    ({ st with error := none,
               messages := st.messages ++ [userMessage],
               inputValue := "",
               isLoading := true },
     some { message := st.inputValue.trim, session_id := st.sessionId })

/-- Embedding of the hasMarkdownLink test of the multi-message branch:
`content.includes('[') && content.includes('](#')`. -/
def hasMarkdownLink (content : String) : Bool :=
  hasChar '[' content.data && containsList "](#".data content.data

/-- Message type assigned in the single-message branch of
handleSendMessage: pdf-response when sources are present, else
data-insight on insight-looking content, else general. -/
def mkBotTypeSingle (sources : Option (List PDFSource)) (content : String) : MessageType :=
  if hasSources sources = true then MessageType.pdfResponse
  else if isDataInsight content = true then MessageType.dataInsight
  else MessageType.general

/-- Message type assigned in the multi-message branch of
handleSendMessage: pdf-response when sources are present, else
data-insight on insight-looking content or an embedded action link, else
general. -/
def mkBotTypeMulti (sources : Option (List PDFSource)) (content : String) : MessageType :=
  if hasSources sources = true then MessageType.pdfResponse
  else if isDataInsight content = true ∨ hasMarkdownLink content = true then
    MessageType.dataInsight
  else MessageType.general

/-- Bot messages appended for one chat API response, following the
multi-message and single-message branches of handleSendMessage. -/
def mkBotMessages (data : ChatResponseData) (now : Nat) : List ChatMessage :=
  match data.payload with
  | ChatPayload.multi msgs =>
    msgs.enum.map (fun p =>
      { id := toString (now + p.1 + 1), role := Role.bot, content := p.2,
        timestamp := data.timestamp,
        type := some (mkBotTypeMulti data.sources p.2),
        sources := data.sources })
  | ChatPayload.single response =>
    [{ id := toString (now + 1), role := Role.bot, content := response,
       timestamp := data.timestamp,
       type := some (mkBotTypeSingle data.sources response),
       sources := data.sources }]

/-- State update performed by handleSendMessage when the fetch resolves
successfully: conditional session-id capture, appending the bot
messages, then the finally block clearing the loading flags. -/
def applySuccess (st : ChatState) (data : ChatResponseData) (now : Nat) : ChatState :=
  let st1 :=
    if data.session_id ≠ "" ∧ st.sessionId = none then
      { st with sessionId := some data.session_id }
    else st
  let st2 := { st1 with messages := st1.messages ++ mkBotMessages data now }
  { st2 with isLoading := false, isPDFSearching := false }

/-- State update performed by the catch and finally blocks of
handleSendMessage when the fetch fails. -/
def applyFailure (st : ChatState) (now : Nat) : ChatState :=
  { st with
    error := some "Failed to send message. Please try again.",
    messages := st.messages ++
      [{ id := toString (now + 1), role := Role.bot,
         content := "Sorry, I encountered an error. Please try again.",
         timestamp := now, type := some MessageType.general, sources := none }],
    isLoading := false, isPDFSearching := false }

/-- Events observed by the widget over its lifetime: a send attempt, a
successful response, or a failed request. -/
inductive ChatEvent
  | send (messageText : Option String) (now : Nat)
  | success (data : ChatResponseData) (now : Nat)
  | failure (now : Nat)

/-- One step of the chat widget state machine; the second component is
the network request issued by the step, if any. -/
def stepWidget (st : ChatState) : ChatEvent → ChatState × Option ChatRequest
  | ChatEvent.send messageText now => sendPhase1 st messageText now
  | ChatEvent.success data now => (applySuccess st data now, none)
  | ChatEvent.failure now => (applyFailure st now, none)

/-- Modelled from the spec: processing state of a RemoteFileHandle.  The
backend lifecycle code is not under src/ (types/pdf.ts only declares the
PROCESSING, ACTIVE and FAILED states seen by the frontend); the spec adds
the transient UPLOADING state of the upload request. -/
inductive ProcState
  | UPLOADING
  | PROCESSING
  | ACTIVE
  | FAILED
deriving DecidableEq, Repr

/-- Modelled from the spec: the valid forward transitions of the
RemoteFileHandle state machine.  UPLOADING advances to PROCESSING on
upload success, PROCESSING advances to ACTIVE when the remote signals
ready and to FAILED when it signals an error; an upload error discards
the handle instead of transitioning it. -/
inductive StepOk : ProcState → ProcState → Prop
  | uploadSuccess : StepOk ProcState.UPLOADING ProcState.PROCESSING
  | remoteReady : StepOk ProcState.PROCESSING ProcState.ACTIVE
  | remoteError : StepOk ProcState.PROCESSING ProcState.FAILED

/-- Progress rank of a processing state; a forward transition strictly
increases it, so a backward transition would strictly decrease it. -/
def stateRank : ProcState → Nat
  | ProcState.UPLOADING => 0
  | ProcState.PROCESSING => 1
  | ProcState.ACTIVE => 2
  | ProcState.FAILED => 2

/-- Modelled from the spec: document category enum of a DocumentRecord
(the enum values also appear as PDFCategory in types/pdf.ts). -/
inductive DocCategory
  | research
  | policy
  | contract
  | clinical
deriving DecidableEq, Repr

/-- Modelled from the spec: a DocumentRecord of the DocumentStore. -/
structure DocumentRecord where
  identityHash : String
  displayName : String
  category : DocCategory
  sizeBytes : Nat
  localPath : String
  lastModified : Nat
deriving DecidableEq, Repr

/-- Modelled from the spec: a RemoteFileHandle of the remote index. -/
structure RemoteFileHandle where
  remoteId : String
  identityHash : String
  processingState : ProcState
  remoteUri : String
  lastStateCheck : Nat
deriving DecidableEq, Repr

/-- Modelled from the spec: the SyncReport returned by sync (the same
four data fields as PDFSyncResponse in types/pdf.ts). -/
structure SyncReport where
  uploaded : Nat
  skipped : Nat
  failed : Nat
  errors : List String
deriving DecidableEq, Repr

namespace DocumentStore

/-- A file of the local document directory as seen by the scan: its
bytes, its display name and its filesystem metadata. -/
structure LocalFile where
  fileName : String
  path : String
  category : DocCategory
  bytes : List Nat
  modifiedTime : Nat
deriving DecidableEq, Repr

/-- Modelled from the spec: the DocumentStore derives a DocumentRecord
from a local file, with the identity hash computed from the file's bytes
by the content-hash function and never from its name.  The DocumentStore
implementation is not under src/. -/
def mkDocumentRecord (hashFn : List Nat → String) (f : LocalFile) : DocumentRecord :=
  { identityHash := hashFn f.bytes,
    displayName := f.fileName,
    category := f.category,
    sizeBytes := f.bytes.length,
    localPath := f.path,
    lastModified := f.modifiedTime }

/-- Modelled from the spec: scan walks the local files, optionally
filtered by category, and returns their DocumentRecords. -/
def scan (hashFn : List Nat → String) (files : List LocalFile)
    (category : Option DocCategory) : List DocumentRecord :=
  (match category with
   | none => files
   | some c => files.filter (fun f => f.category = c)).map (mkDocumentRecord hashFn)

end DocumentStore

namespace RemoteIndexClient

/-- Result of one upload call against the remote document index. -/
inductive UploadResult
  | success (remoteId : String) (uri : String)
  | failure (message : String)
deriving DecidableEq, Repr

/-- Is the upload result a success? -/
def UploadResult.isSuccess : UploadResult → Bool
  | UploadResult.success _ _ => true
  | UploadResult.failure _ => false

/-- The remote document index treated as a black box: a deterministic
upload behaviour per document. -/
structure SyncEnv where
  upload : DocumentRecord → UploadResult

/-- Modelled from the spec: the dedup test of sync — an identity hash
that already has an ACTIVE or PROCESSING handle is skipped. -/
def hasLiveHandle (handles : List RemoteFileHandle) (h : String) : Bool :=
  handles.any (fun fh =>
    fh.identityHash = h ∧
      (fh.processingState = ProcState.ACTIVE ∨
       fh.processingState = ProcState.PROCESSING))

/-- Accumulator of one sync run: the report so far and the handle table. -/
structure SyncAcc where
  report : SyncReport
  handles : List RemoteFileHandle
deriving DecidableEq, Repr

/-- Modelled from the spec: processing of one scanned document during
sync.  A document whose identity hash already has a live handle is
counted as skipped (unless force); otherwise its content is uploaded: on
success a handle is created (in PROCESSING state once the upload has
succeeded), on failure no handle is left behind and the error is
reported. -/
def syncStep (env : SyncEnv) (force : Bool) (acc : SyncAcc) (doc : DocumentRecord) :
    SyncAcc :=
  if force = false ∧ hasLiveHandle acc.handles doc.identityHash = true then
    { acc with report := { acc.report with skipped := acc.report.skipped + 1 } }
  else
    match env.upload doc with
    | UploadResult.success rid uri =>
      { report := { acc.report with uploaded := acc.report.uploaded + 1 },
        handles := acc.handles ++
          [{ remoteId := rid, identityHash := doc.identityHash,
             processingState := ProcState.PROCESSING,
             remoteUri := uri, lastStateCheck := 0 }] }
    | UploadResult.failure msg =>
      { acc with report := { acc.report with
          failed := acc.report.failed + 1,
          errors := acc.report.errors ++ [msg] } }

/-- Modelled from the spec: sync uploads every scanned document not yet
represented by a live handle and reports every document exactly once as
uploaded, skipped or failed.  The backend implementation is not under
src/; only its response type PDFSyncResponse is. -/
def sync (env : SyncEnv) (force : Bool) (docs : List DocumentRecord)
    (handles : List RemoteFileHandle) : SyncAcc :=
  docs.foldl (syncStep env force)
    { report := { uploaded := 0, skipped := 0, failed := 0, errors := [] },
      handles := handles }

/-- The remote ids of the ACTIVE handles, the scope of a grounded query. -/
def activeRemoteIds (handles : List RemoteFileHandle) : List String :=
  (handles.filter (fun h => h.processingState = ProcState.ACTIVE)).map
    (fun h => h.remoteId)

/-- Answer of the remote index to a grounded request: the answer text and
the file references it cites. -/
structure RemoteAnswer where
  text : String
  citedFileRefs : List String
deriving DecidableEq, Repr

/-- Reply of a grounded query: the answer text paired with the sources
that grounded it. -/
structure QueryReply where
  answerText : String
  sources : List PDFSource
deriving DecidableEq, Repr

/-- Modelled from the spec: query issues a grounded request against the
set of ACTIVE handles and extracts the citations, keeping only cited
references that belong to the queried scope and resolving each to a
named source.  The backend implementation is not under src/. -/
def query (remote : String → List String → RemoteAnswer)
    (nameOf : String → String) (handles : List RemoteFileHandle)
    (text : String) : QueryReply :=
  let refs := activeRemoteIds handles
  let ans := remote text refs
  { answerText := ans.text,
    sources := (ans.citedFileRefs.filter (fun c => refs.contains c)).map
      (fun rid => { name := nameOf rid, file_id := rid }) }

end RemoteIndexClient

namespace EnrichmentProviderChain

/-- Modelled from the spec: confidence tier of an EnrichmentRecord. -/
inductive Confidence
  | CACHED
  | PROVIDER_A
  | PROVIDER_B_UNVERIFIED
deriving DecidableEq, Repr

/-- Outcome of one provider lookup call: a non-null result carrying the
looked-up fields, a null result, or one of the two provider failure
modes RateLimited and ProviderUnavailable. -/
inductive ProviderOutcome
  | found (fields : List (String × String))
  | noResult
  | rateLimited
  | unavailable
deriving DecidableEq, Repr

/-- Modelled from the spec: an external lookup provider of the chain,
with its identity, its authoritativeness tier and its lookup behaviour
on an entity name and a hint. -/
structure Provider where
  providerName : String
  tier : Confidence
  lookup : String → String → ProviderOutcome

/-- Outcome of one chain run: a resolved result with its provider
attribution, or the normal not-found outcome. -/
inductive ChainOutcome
  | resolved (fields : List (String × String)) (providerName : String)
      (conf : Confidence)
  | notFound
deriving DecidableEq, Repr

/-- Modelled from the spec: run the provider chain in order, one call
per provider.  A RateLimited or unavailable provider is passed over in
favour of the next provider (per-provider backoff has no functional
effect in this embedding), a null result moves on too, and the first
non-null result stops the chain.  The second component counts the
provider calls made.  The chain implementation is not under src/. -/
def runChain : List Provider → String → String → ChainOutcome × Nat
  | [], _, _ => (ChainOutcome.notFound, 0)
  | p :: ps, entity, hint =>
    match p.lookup entity hint with
    | ProviderOutcome.found fields =>
      (ChainOutcome.resolved fields p.providerName p.tier, 1)
    | _ =>
      ((runChain ps entity hint).1, (runChain ps entity hint).2 + 1)

/-- Modelled from the spec: an EnrichmentRecord of the record store. -/
structure EnrichmentRecord where
  entityId : String
  fields : List (String × String)
  sourceProvider : String
  lastUpdated : Nat
  confidence : Confidence
deriving DecidableEq, Repr

/-- Find the cached EnrichmentRecord of an entity, if any. -/
def findRecord (cache : List EnrichmentRecord) (entity : String) :
    Option EnrichmentRecord :=
  cache.find? (fun r => r.entityId = entity)

/-- Modelled from the spec: a cached record is stale when its lastUpdated
is older than the staleness threshold. -/
def isStale (r : EnrichmentRecord) (now threshold : Nat) : Bool :=
  threshold < now - r.lastUpdated

/-- Replace the record of an entity in the cache, or append it when the
entity has no record yet. -/
def upsert (cache : List EnrichmentRecord) (entity : String)
    (r : EnrichmentRecord) : List EnrichmentRecord :=
  if cache.any (fun x => x.entityId = entity) then
    cache.map (fun x => if x.entityId = entity then r else x)
  else cache ++ [r]

/-- Reply of one enrichment lookup: the record (none on a not-found
outcome), the number of provider calls made, and the cache afterwards. -/
structure LookupReply where
  record : Option EnrichmentRecord
  providerCalls : Nat
  cache : List EnrichmentRecord
deriving DecidableEq, Repr

/-- Modelled from the spec: the refresh path of an enrichment lookup,
taken when the cache has no fresh record — run the chain and persist the
first non-null result with the provider's identity and tier. -/
def refreshLookup (ps : List Provider) (now : Nat)
    (cache : List EnrichmentRecord) (entity hint : String) : LookupReply :=
  match runChain ps entity hint with
  | (ChainOutcome.resolved fields pname conf, n) =>
    { record := some { entityId := entity, fields := fields,
                       sourceProvider := pname, lastUpdated := now,
                       confidence := conf },
      providerCalls := n,
      cache := upsert cache entity
        { entityId := entity, fields := fields, sourceProvider := pname,
          lastUpdated := now, confidence := conf } }
  | (ChainOutcome.notFound, n) =>
    { record := none, providerCalls := n, cache := cache }

/-- Modelled from the spec: enrichment lookup of an entity — a present
and non-stale cached record is returned with confidence CACHED and
without any provider call; otherwise (absent or stale) the chain runs
and a first non-null result is persisted.  The enrichment implementation
is not under src/. -/
def lookupEnrichment (ps : List Provider) (threshold now : Nat)
    (cache : List EnrichmentRecord) (entity hint : String) : LookupReply :=
  match findRecord cache entity with
  | some r =>
    if isStale r now threshold = true then refreshLookup ps now cache entity hint
    else
      { record := some { r with confidence := Confidence.CACHED },
        providerCalls := 0, cache := cache }
  | none => refreshLookup ps now cache entity hint

end EnrichmentProviderChain

namespace IntentDispatcher

/-- Modelled from the spec: outcome recorded in an AuditEntry. -/
inductive AuditOutcome
  | SUCCESS
  | FAILURE
deriving DecidableEq, Repr

/-- Modelled from the spec: an append-only AuditEntry of the
ComplianceAuditLog. -/
structure AuditEntry where
  id : Nat
  timestampUtc : Nat
  actor : String
  action : String
  inputsDigest : String
  outputsDigest : String
  outcome : AuditOutcome
deriving DecidableEq, Repr

/-- Outcome of running one handler: a formatted reply, or a raised
internal exception carrying its detail. -/
inductive HandlerOutcome
  | ok (text : String) (sources : List PDFSource)
  | raised (detail : String)
deriving DecidableEq, Repr

/-- Reply of the dispatcher to the caller. -/
structure DispatchReply where
  text : String
  sources : List PDFSource
deriving DecidableEq, Repr

/-- The user-safe apology the dispatcher substitutes for a raised
internal error. -/
def apologyText : String := "Sorry, I encountered an error. Please try again."

/-- Modelled from the spec: evaluate the ordered (matcher, handler) rows
in registration order and select the first whose matcher accepts the
text; when none matches, the default general-purpose handler runs.  Each
row carries the handler's name for audit attribution. -/
def selectHandler
    (table : List ((String → Bool) × String × (String → HandlerOutcome)))
    (fallback : String × (String → HandlerOutcome)) (text : String) :
    String × (String → HandlerOutcome) :=
  match table.find? (fun row => row.1 text) with
  | some row => row.2
  | none => fallback

/-- Modelled from the spec: dispatch one inbound request — run the
selected handler, append an AuditEntry for the invocation, and on a
raised handler exception record FAILURE with the original detail in the
audit log while returning only the user-safe apology to the caller.  The
dispatcher implementation is not under src/. -/
def dispatch
    (table : List ((String → Bool) × String × (String → HandlerOutcome)))
    (fallback : String × (String → HandlerOutcome)) (text : String)
    (now : Nat) (log : List AuditEntry) : DispatchReply × List AuditEntry :=
  match (selectHandler table fallback text).2 text with
  | HandlerOutcome.ok t s =>
    ({ text := t, sources := s },
     log ++ [{ id := log.length, timestampUtc := now,
               actor := (selectHandler table fallback text).1,
               action := "handle", inputsDigest := text, outputsDigest := t,
               outcome := AuditOutcome.SUCCESS }])
  | HandlerOutcome.raised d =>
    ({ text := apologyText, sources := [] },
     log ++ [{ id := log.length, timestampUtc := now,
               actor := (selectHandler table fallback text).1,
               action := "handle", inputsDigest := text, outputsDigest := d,
               outcome := AuditOutcome.FAILURE }])

end IntentDispatcher

open DocumentStore RemoteIndexClient EnrichmentProviderChain IntentDispatcher

/-- Membership of a character distributes over list append. -/
theorem hasChar_append (x : Char) (a b : List Char) :
    hasChar x (a ++ b) = (hasChar x a || hasChar x b) := by
  induction a with
  | nil => simp [hasChar]
  | cons c cs ih =>
    by_cases hc : c = x <;> simp [hasChar, hc, ih]

/-- The two components of takeNo reassemble to the input. -/
theorem takeNo_append (stop : Char) (l : List Char) :
    (takeNo stop l).1 ++ (takeNo stop l).2 = l := by
  induction l with
  | nil => simp [takeNo]
  | cons c cs ih =>
    by_cases hc : c = stop <;> simp [takeNo, hc, ih]

/-- The first component of takeNo never contains the stop character. -/
theorem takeNo_fst_clean (stop : Char) (l : List Char) :
    hasChar stop (takeNo stop l).1 = false := by
  induction l with
  | nil => simp [takeNo, hasChar]
  | cons c cs ih =>
    by_cases hc : c = stop <;> simp [takeNo, hasChar, hc, ih]

/-- The second component of takeNo is empty or starts with the stop
character. -/
theorem takeNo_snd_shape (stop : Char) (l : List Char) :
    (takeNo stop l).2 = [] ∨ ∃ r, (takeNo stop l).2 = stop :: r := by
  induction l with
  | nil => left; simp [takeNo]
  | cons c cs ih =>
    by_cases hc : c = stop
    · right; exact ⟨cs, by simp [takeNo, hc]⟩
    · simpa [takeNo, hc] using ih

/-- takeNo computed on an explicit clean split. -/
theorem takeNo_clean_append (stop : Char) (a b : List Char)
    (h : hasChar stop a = false) : takeNo stop (a ++ stop :: b) = (a, stop :: b) := by
  induction a with
  | nil => simp [takeNo]
  | cons c cs ih =>
    by_cases hc : c = stop
    · rw [hasChar, if_pos hc] at h; exact absurd h (by simp)
    · rw [hasChar, if_neg hc] at h
      simp [takeNo, hc, ih h]

/-- Escaping spaces leaves no space behind. -/
theorem encodeSpaces_no_space (l : List Char) :
    hasChar ' ' (encodeSpaces l) = false := by
  induction l with
  | nil => simp [encodeSpaces, hasChar]
  | cons c cs ih =>
    by_cases hc : c = ' ' <;> simp [encodeSpaces, hasChar, hc, ih]

/-- Escaping spaces introduces none of the structural characters: a
character other than the three of %20 that was absent stays absent. -/
theorem encodeSpaces_keeps_clean (x : Char) (l : List Char)
    (hx1 : x ≠ '%') (hx2 : x ≠ '2') (hx3 : x ≠ '0')
    (h : hasChar x l = false) : hasChar x (encodeSpaces l) = false := by
  induction l with
  | nil => simpa [encodeSpaces] using h
  | cons c cs ih =>
    rw [hasChar] at h
    by_cases hc : c = x
    · rw [if_pos hc] at h; exact absurd h (by simp)
    · rw [if_neg hc] at h
      by_cases hsp : c = ' '
      · simp [encodeSpaces, hsp, hasChar, Ne.symm hx1, Ne.symm hx2, Ne.symm hx3, ih h]
      · simp [encodeSpaces, hsp, hasChar, hc, ih h]

/-- Escaping spaces preserves nonemptiness. -/
theorem encodeSpaces_ne_nil (l : List Char) (h : l ≠ []) :
    encodeSpaces l ≠ [] := by
  cases l with
  | nil => exact absurd rfl h
  | cons c cs =>
    by_cases hc : c = ' ' <;> simp [encodeSpaces, hc]

/-- The fixed url never contains a space. -/
theorem fixUrl_no_space (u : List Char) : hasChar ' ' (fixUrl u) = false := by
  unfold fixUrl
  by_cases h : hasChar ' ' u = true
  · simp [h, encodeSpaces_no_space]
  · simp only [h, if_neg]
    simpa using h

/-- A url free of spaces is kept as matched. -/
theorem fixUrl_of_clean (u : List Char) (h : hasChar ' ' u = false) :
    fixUrl u = u := by
  simp [fixUrl, h]

/-- Fixing a url twice is the same as fixing it once. -/
theorem fixUrl_idem (u : List Char) : fixUrl (fixUrl u) = fixUrl u :=
  fixUrl_of_clean _ (fixUrl_no_space u)

/-- The fixed url contains no closing parenthesis when the matched url
contained none. -/
theorem fixUrl_clean_paren (u : List Char) (h : hasChar ')' u = false) :
    hasChar ')' (fixUrl u) = false := by
  unfold fixUrl
  by_cases hs : hasChar ' ' u = true
  · simp only [hs, if_pos rfl]
    exact encodeSpaces_keeps_clean ')' u (by decide) (by decide) (by decide) h
  · simpa [hs] using h

/-- The fixed url is nonempty when the matched url was. -/
theorem fixUrl_ne_nil (u : List Char) (h : u ≠ []) : fixUrl u ≠ [] := by
  unfold fixUrl
  by_cases hs : hasChar ' ' u = true
  · simp only [hs, if_pos rfl]; exact encodeSpaces_ne_nil u h
  · simpa [hs] using h

/-- A successful link match decomposes the input into bracketed text and
parenthesised url, both nonempty and free of their closing character. -/
theorem matchLink_some_decomp {l t u r : List Char}
    (h : matchLink l = some (t, u, r)) :
    l = '[' :: (t ++ ']' :: '(' :: (u ++ ')' :: r)) ∧
      hasChar ']' t = false ∧ t ≠ [] ∧ hasChar ')' u = false ∧ u ≠ [] := by
  cases l with
  | nil => simp [matchLink] at h
  | cons c cs =>
    by_cases hc : c = '['
    · subst hc
      rw [matchLink, if_pos rfl] at h
      unfold matchAfterBracket at h
      rcases takeNo_snd_shape ']' cs with h2 | ⟨r0, h2⟩
      · rw [h2] at h; simp [stage2] at h
      · rw [h2] at h
        cases r0 with
        | nil => simp [stage2] at h
        | cons p cs2 =>
          rw [stage2] at h
          by_cases hcond : (']' = ']' ∧ p = '(' ∧ (takeNo ']' cs).1 ≠ [])
          · rw [if_pos hcond] at h
            obtain ⟨-, hp, hT⟩ := hcond
            subst hp
            rcases takeNo_snd_shape ')' cs2 with h3 | ⟨r1, h3⟩
            · rw [h3] at h; simp [stage3] at h
            · rw [h3, stage3] at h
              by_cases hcond2 : (')' = ')' ∧ (takeNo ')' cs2).1 ≠ [])
              · rw [if_pos hcond2] at h
                obtain ⟨het, heu, her⟩ :
                    (takeNo ']' cs).1 = t ∧ (takeNo ')' cs2).1 = u ∧ r1 = r := by
                  simpa using h
                have ecs : (takeNo ']' cs).1 ++ (takeNo ']' cs).2 = cs :=
                  takeNo_append ']' cs
                have ecs2 : (takeNo ')' cs2).1 ++ (takeNo ')' cs2).2 = cs2 :=
                  takeNo_append ')' cs2
                rw [h3, heu, her] at ecs2
                rw [h2, het, ← ecs2] at ecs
                refine ⟨by rw [← ecs], ?_, ?_, ?_, ?_⟩
                · rw [← het]; exact takeNo_fst_clean ']' cs
                · rw [← het]; exact hT
                · rw [← heu]; exact takeNo_fst_clean ')' cs2
                · rw [← heu]; exact hcond2.2
              · rw [if_neg hcond2] at h; simp at h
          · rw [if_neg hcond] at h; simp at h
    · rw [matchLink, if_neg hc] at h; simp at h

/-- Conversely, an explicit bracketed text and parenthesised url, both
nonempty and clean, always match as a link. -/
theorem matchLink_build {t u r : List Char}
    (ht : hasChar ']' t = false) (ht0 : t ≠ [])
    (hu : hasChar ')' u = false) (hu0 : u ≠ []) :
    matchLink ('[' :: (t ++ ']' :: '(' :: (u ++ ')' :: r))) = some (t, u, r) := by
  rw [matchLink, if_pos rfl]
  unfold matchAfterBracket
  rw [takeNo_clean_append ']' t ('(' :: (u ++ ')' :: r)) ht]
  rw [stage2, if_pos ⟨rfl, rfl, ht0⟩]
  rw [takeNo_clean_append ')' u r hu]
  rw [stage3, if_pos ⟨rfl, hu0⟩]

/-- The remainder after a successful link match is shorter than the tail
of the input. -/
theorem matchLink_rest_le {c : Char} {cs t u r : List Char}
    (h : matchLink (c :: cs) = some (t, u, r)) : r.length ≤ cs.length := by
  obtain ⟨hl, -, -, -, -⟩ := matchLink_some_decomp h
  have : cs = t ++ ']' :: '(' :: (u ++ ')' :: r) := by
    injection hl
  subst this
  simp [List.length_append]
  omega

/-- Scanning the empty input gives the empty output at any fuel. -/
theorem scanGo_nil (f : Nat) : scanGo f [] = [] := by
  cases f <;> rfl

/-- The scan result does not depend on the fuel, as long as the fuel
covers the input length. -/
theorem scanGo_fuel :
    ∀ (f g : Nat) (l : List Char), l.length ≤ f → l.length ≤ g →
      scanGo f l = scanGo g l := by
  intro f
  induction f with
  | zero =>
    intro g l hf _
    have : l = [] := List.eq_nil_of_length_eq_zero (Nat.le_zero.mp hf)
    subst this
    rw [scanGo_nil, scanGo_nil]
  | succ f ih =>
    intro g l hf hg
    cases l with
    | nil => rw [scanGo_nil, scanGo_nil]
    | cons c cs =>
      cases g with
      | zero => simp at hg
      | succ g =>
        rw [scanGo, scanGo]
        cases hm : matchLink (c :: cs) with
        | none =>
          simp only []
          have : scanGo f cs = scanGo g cs :=
            ih g cs (Nat.le_of_succ_le_succ hf) (Nat.le_of_succ_le_succ hg)
          rw [this]
        | some v =>
          obtain ⟨t, u, r⟩ := v
          simp only []
          have hr : r.length ≤ cs.length := matchLink_rest_le hm
          have : scanGo f r = scanGo g r :=
            ih g r (le_trans hr (Nat.le_of_succ_le_succ hf))
              (le_trans hr (Nat.le_of_succ_le_succ hg))
          rw [this]

/-- Unfolding equation of the scan on a link match. -/
theorem scanL_some {c : Char} {cs t u r : List Char}
    (h : matchLink (c :: cs) = some (t, u, r)) :
    scanL (c :: cs) = '[' :: (t ++ ']' :: '(' :: (fixUrl u ++ ')' :: scanL r)) := by
  unfold scanL
  rw [List.length_cons, scanGo, h]
  have hr : r.length ≤ cs.length := matchLink_rest_le h
  show '[' :: (t ++ ']' :: '(' :: (fixUrl u ++ ')' :: scanGo cs.length r)) =
    '[' :: (t ++ ']' :: '(' :: (fixUrl u ++ ')' :: scanGo r.length r))
  rw [scanGo_fuel cs.length r.length r hr le_rfl]

/-- Unfolding equation of the scan when no link matches at the head. -/
theorem scanL_none {c : Char} {cs : List Char}
    (h : matchLink (c :: cs) = none) :
    scanL (c :: cs) = c :: scanL cs := by
  unfold scanL
  rw [List.length_cons, scanGo, h]

/-- Every list rewrites to itself. -/
theorem subst_refl (l : List Char) : Subst l l := by
  induction l with
  | nil => exact Subst.nil
  | cons c cs ih => exact Subst.keep c ih

/-- Rewriting is compatible with append. -/
theorem subst_append {a b c d : List Char} (h1 : Subst a b) (h2 : Subst c d) :
    Subst (a ++ c) (b ++ d) := by
  induction h1 with
  | nil => exact h2
  | keep x _ ih => exact Subst.keep x ih
  | space _ ih => exact Subst.space ih

/-- Escaping every space is a space rewriting. -/
theorem subst_encode (l : List Char) : Subst l (encodeSpaces l) := by
  induction l with
  | nil => exact Subst.nil
  | cons c cs ih =>
    by_cases hc : c = ' '
    · subst hc; rw [encodeSpaces, if_pos rfl]; exact Subst.space ih
    · rw [encodeSpaces, if_neg hc]; exact Subst.keep c ih

/-- Fixing a url is a space rewriting of it. -/
theorem subst_fixUrl (u : List Char) : Subst u (fixUrl u) := by
  unfold fixUrl
  by_cases h : hasChar ' ' u = true
  · rw [if_pos h]; exact subst_encode u
  · rw [if_neg h]; exact subst_refl u

/-- Only the empty list rewrites to the empty list, in both directions. -/
theorem subst_nil_left {m : List Char} (h : Subst [] m) : m = [] := by
  cases h; rfl

/-- A rewriting of a nonempty list is nonempty. -/
theorem subst_ne_nil {a b : List Char} (h : Subst a b) (ha : a ≠ []) : b ≠ [] := by
  cases h with
  | nil => exact absurd rfl ha
  | keep c _ => simp
  | space _ => simp

/-- Inversion of a rewriting at a cons: the head is kept, or it is a
space replaced by the three characters of %20. -/
theorem subst_cons_cases {c : Char} {l m : List Char} (h : Subst (c :: l) m) :
    (∃ m', m = c :: m' ∧ Subst l m') ∨
      (c = ' ' ∧ ∃ m', m = '%' :: '2' :: '0' :: m' ∧ Subst l m') := by
  cases h with
  | keep _ h' => exact Or.inl ⟨_, rfl, h'⟩
  | space h' => exact Or.inr ⟨rfl, _, rfl, h'⟩

/-- Inversion of a rewriting at a cons whose head is not a space: the
head must be kept. -/
theorem subst_cons_keep {c : Char} {l m : List Char} (hc : c ≠ ' ')
    (h : Subst (c :: l) m) : ∃ m', m = c :: m' ∧ Subst l m' := by
  rcases subst_cons_cases h with h' | ⟨hsp, -⟩
  · exact h'
  · exact absurd hsp hc

/-- A space rewriting commutes with splitting at a stop character that is
neither a space nor one of the three characters of %20. -/
theorem takeNo_subst (stop : Char) (h1 : stop ≠ ' ') (h2 : stop ≠ '%')
    (h3 : stop ≠ '2') (h4 : stop ≠ '0') :
    ∀ {x y : List Char}, Subst x y →
      Subst (takeNo stop x).1 (takeNo stop y).1 ∧
        Subst (takeNo stop x).2 (takeNo stop y).2 := by
  intro x y h
  induction h with
  | nil => exact ⟨Subst.nil, Subst.nil⟩
  | keep c hs ih =>
    by_cases hc : c = stop
    · subst hc
      rw [takeNo, if_pos rfl, takeNo, if_pos rfl]
      exact ⟨Subst.nil, Subst.keep c hs⟩
    · rw [takeNo, if_neg hc, takeNo, if_neg hc]
      exact ⟨Subst.keep c ih.1, ih.2⟩
  | space hs ih =>
    rw [takeNo, if_neg (fun he => h1 he.symm)]
    rw [takeNo, if_neg (fun he => h2 he.symm)]
    rw [takeNo, if_neg (fun he => h3 he.symm)]
    rw [takeNo, if_neg (fun he => h4 he.symm)]
    exact ⟨Subst.space ih.1, ih.2⟩

/-- A failed link-body match stays failed on any space rewriting of the
input: escaping spaces to %20 creates none of the structural characters
of a link. -/
theorem matchAfterBracket_none_subst {x y : List Char} (hS : Subst x y)
    (h : matchAfterBracket x = none) : matchAfterBracket y = none := by
  obtain ⟨hf, hs⟩ := takeNo_subst ']' (by decide) (by decide) (by decide) (by decide) hS
  unfold matchAfterBracket at h ⊢
  rcases takeNo_snd_shape ']' x with hx2 | ⟨r0, hx2⟩
  · rw [hx2] at hs
    rw [subst_nil_left hs]
    simp [stage2]
  · rw [hx2] at hs h
    obtain ⟨m1, hy2, hs1⟩ := subst_cons_keep (by decide) hs
    rw [hy2]
    cases r0 with
    | nil =>
      rw [subst_nil_left hs1]
      simp [stage2]
    | cons p cs2 =>
      rcases subst_cons_cases hs1 with ⟨m2, hm1, hs2⟩ | ⟨hp, m2, hm1, hs2⟩
      · subst hm1
        rw [stage2] at h ⊢
        by_cases hcond : (']' = ']' ∧ p = '(' ∧ (takeNo ']' x).1 ≠ [])
        · rw [if_pos hcond] at h
          obtain ⟨-, hp', hTx⟩ := hcond
          have hTy : (takeNo ']' y).1 ≠ [] := subst_ne_nil hf hTx
          rw [if_pos ⟨rfl, hp', hTy⟩]
          obtain ⟨hf2, hs2'⟩ :=
            takeNo_subst ')' (by decide) (by decide) (by decide) (by decide) hs2
          rcases takeNo_snd_shape ')' cs2 with hx3 | ⟨r1, hx3⟩
          · rw [hx3] at hs2'
            rw [subst_nil_left hs2']
            simp [stage3]
          · rw [hx3] at hs2' h
            obtain ⟨m3, hy3, hs3⟩ := subst_cons_keep (by decide) hs2'
            rw [hy3]
            rw [stage3] at h ⊢
            by_cases hcond2 : (')' = ')' ∧ (takeNo ')' cs2).1 ≠ [])
            · rw [if_pos hcond2] at h; simp at h
            · have hu : (takeNo ')' cs2).1 = [] := by
                by_contra hne
                exact hcond2 ⟨rfl, hne⟩
              have hu' : (takeNo ')' m2).1 = [] := by
                rw [hu] at hf2
                exact subst_nil_left hf2
              rw [if_neg (by simp [hu'])]
        · by_cases hp2 : p = '('
          · have hTx : (takeNo ']' x).1 = [] := by
              by_contra hne
              exact hcond ⟨rfl, hp2, hne⟩
            have hTy : (takeNo ']' y).1 = [] := by
              rw [hTx] at hf
              exact subst_nil_left hf
            rw [if_neg (by simp [hTy])]
          · rw [if_neg (by simp [hp2])]
      · subst hm1
        rw [stage2, if_neg (fun hcc => absurd hcc.2.1 (by decide))]

/-- A failed link match stays failed on any space rewriting of the
input. -/
theorem matchLink_none_subst {x y : List Char} (hS : Subst x y)
    (h : matchLink x = none) : matchLink y = none := by
  cases hS with
  | nil => rfl
  | keep c hs =>
    by_cases hc : c = '['
    · subst hc
      rw [matchLink, if_pos rfl] at h
      rw [matchLink, if_pos rfl]
      exact matchAfterBracket_none_subst hs h
    · rw [matchLink, if_neg hc]
  | space hs =>
    rw [matchLink, if_neg (by decide)]

/-- The scan output is a space rewriting of its input: it only replaces
spaces inside matched urls by %20 and keeps every other character. -/
theorem subst_scanL : ∀ (n : Nat) (l : List Char), l.length ≤ n → Subst l (scanL l) := by
  intro n
  induction n with
  | zero =>
    intro l hl
    rw [List.eq_nil_of_length_eq_zero (Nat.le_zero.mp hl)]
    exact Subst.nil
  | succ n ih =>
    intro l hl
    cases l with
    | nil => exact Subst.nil
    | cons c cs =>
      cases hm : matchLink (c :: cs) with
      | none =>
        rw [scanL_none hm]
        exact Subst.keep c (ih cs (Nat.le_of_succ_le_succ hl))
      | some v =>
        obtain ⟨t, u, r⟩ := v
        rw [scanL_some hm]
        obtain ⟨hl0, -, -, -, -⟩ := matchLink_some_decomp hm
        rw [hl0]
        have hr : r.length ≤ n :=
          le_trans (matchLink_rest_le hm) (Nat.le_of_succ_le_succ hl)
        exact Subst.keep '[' (subst_append (subst_refl t)
          (Subst.keep ']' (Subst.keep '(' (subst_append (subst_fixUrl u)
            (Subst.keep ')' (ih r hr))))))

/-- Scanning twice gives the same output as scanning once. -/
theorem scanL_idem_aux :
    ∀ (n : Nat) (l : List Char), l.length ≤ n → scanL (scanL l) = scanL l := by
  intro n
  induction n with
  | zero =>
    intro l hl
    rw [List.eq_nil_of_length_eq_zero (Nat.le_zero.mp hl)]
    rfl
  | succ n ih =>
    intro l hl
    cases l with
    | nil => rfl
    | cons c cs =>
      cases hm : matchLink (c :: cs) with
      | none =>
        rw [scanL_none hm]
        have hnone : matchLink (c :: scanL cs) = none :=
          matchLink_none_subst
            (Subst.keep c (subst_scanL n cs (Nat.le_of_succ_le_succ hl))) hm
        rw [scanL_none hnone, ih cs (Nat.le_of_succ_le_succ hl)]
      | some v =>
        obtain ⟨t, u, r⟩ := v
        obtain ⟨-, htc, ht0, huc, hu0⟩ := matchLink_some_decomp hm
        rw [scanL_some hm]
        have hm2 : matchLink ('[' :: (t ++ ']' :: '(' :: (fixUrl u ++ ')' :: scanL r)))
            = some (t, fixUrl u, scanL r) :=
          matchLink_build htc ht0 (fixUrl_clean_paren u huc) (fixUrl_ne_nil u hu0)
        rw [scanL_some hm2, fixUrl_idem]
        have hr : r.length ≤ n :=
          le_trans (matchLink_rest_le hm) (Nat.le_of_succ_le_succ hl)
        rw [ih r hr]

/-- The link check accepts the empty input at any fuel. -/
theorem goodGo_nil (f : Nat) : goodGo f [] = true := by
  cases f <;> rfl

/-- The link check does not depend on the fuel, as long as the fuel
covers the input length. -/
theorem goodGo_fuel :
    ∀ (f g : Nat) (l : List Char), l.length ≤ f → l.length ≤ g →
      goodGo f l = goodGo g l := by
  intro f
  induction f with
  | zero =>
    intro g l hf _
    rw [List.eq_nil_of_length_eq_zero (Nat.le_zero.mp hf)]
    rw [goodGo_nil, goodGo_nil]
  | succ f ih =>
    intro g l hf hg
    cases l with
    | nil => rw [goodGo_nil, goodGo_nil]
    | cons c cs =>
      cases g with
      | zero => simp at hg
      | succ g =>
        rw [goodGo, goodGo]
        cases hm : matchLink (c :: cs) with
        | none =>
          have : goodGo f cs = goodGo g cs :=
            ih g cs (Nat.le_of_succ_le_succ hf) (Nat.le_of_succ_le_succ hg)
          rw [this]
        | some v =>
          obtain ⟨t, u, r⟩ := v
          have hr : r.length ≤ cs.length := matchLink_rest_le hm
          have : goodGo f r = goodGo g r :=
            ih g r (le_trans hr (Nat.le_of_succ_le_succ hf))
              (le_trans hr (Nat.le_of_succ_le_succ hg))
          show (if hasChar ' ' u = true then false else goodGo f r)
            = if hasChar ' ' u = true then false else goodGo g r
          rw [this]

/-- Unfolding equation of the link check on a match. -/
theorem linksSpaceFree_some {c : Char} {cs t u r : List Char}
    (h : matchLink (c :: cs) = some (t, u, r)) :
    linksSpaceFree (c :: cs)
      = if hasChar ' ' u = true then false else linksSpaceFree r := by
  unfold linksSpaceFree
  rw [List.length_cons, goodGo, h]
  have hr : r.length ≤ cs.length := matchLink_rest_le h
  show (if hasChar ' ' u = true then false else goodGo cs.length r)
    = if hasChar ' ' u = true then false else goodGo r.length r
  rw [goodGo_fuel cs.length r.length r hr le_rfl]

/-- Unfolding equation of the link check when no link matches at the
head. -/
theorem linksSpaceFree_none {c : Char} {cs : List Char}
    (h : matchLink (c :: cs) = none) :
    linksSpaceFree (c :: cs) = linksSpaceFree cs := by
  unfold linksSpaceFree
  rw [List.length_cons, goodGo, h]

/-- Every link of the scan output has a space-free url. -/
theorem linksSpaceFree_scanL :
    ∀ (n : Nat) (l : List Char), l.length ≤ n →
      linksSpaceFree (scanL l) = true := by
  intro n
  induction n with
  | zero =>
    intro l hl
    rw [List.eq_nil_of_length_eq_zero (Nat.le_zero.mp hl)]
    rfl
  | succ n ih =>
    intro l hl
    cases l with
    | nil => rfl
    | cons c cs =>
      cases hm : matchLink (c :: cs) with
      | none =>
        rw [scanL_none hm]
        have hnone : matchLink (c :: scanL cs) = none :=
          matchLink_none_subst
            (Subst.keep c (subst_scanL n cs (Nat.le_of_succ_le_succ hl))) hm
        rw [linksSpaceFree_none hnone]
        exact ih cs (Nat.le_of_succ_le_succ hl)
      | some v =>
        obtain ⟨t, u, r⟩ := v
        obtain ⟨-, htc, ht0, huc, hu0⟩ := matchLink_some_decomp hm
        rw [scanL_some hm]
        have hm2 : matchLink ('[' :: (t ++ ']' :: '(' :: (fixUrl u ++ ')' :: scanL r)))
            = some (t, fixUrl u, scanL r) :=
          matchLink_build htc ht0 (fixUrl_clean_paren u huc) (fixUrl_ne_nil u hu0)
        rw [linksSpaceFree_some hm2, fixUrl_no_space]
        have hr : r.length ≤ n :=
          le_trans (matchLink_rest_le hm) (Nat.le_of_succ_le_succ hl)
        simpa using ih r hr

/-- An input with no markdown link is scanned to itself. -/
theorem scanL_of_no_link : ∀ (l : List Char), hasLink l = false → scanL l = l := by
  intro l
  induction l with
  | nil => intro _; rfl
  | cons c cs ih =>
    intro h
    rw [hasLink] at h
    by_cases hm : (matchLink (c :: cs)).isSome = true
    · rw [if_pos hm] at h; exact absurd h (by simp)
    · rw [if_neg hm] at h
      have hnone : matchLink (c :: cs) = none :=
        Option.not_isSome_iff_eq_none.mp (by simpa using hm)
      rw [scanL_none hnone, ih h]

/-- Claim C9: preprocessMessageContent is idempotent — for every input
string, applying it twice yields the same result as applying it once;
its output contains no markdown-link url with a remaining space; and a
string without markdown links is returned unchanged. -/
theorem preprocessMessageContent_idem (s : String) :
    preprocessMessageContent (preprocessMessageContent s) = preprocessMessageContent s
    ∧ linksSpaceFree (preprocessMessageContent s).data = true
    ∧ (hasLink s.data = false → preprocessMessageContent s = s) := by
  refine ⟨?_, ?_, ?_⟩
  · show (⟨scanL (scanL s.data)⟩ : String) = ⟨scanL s.data⟩
    rw [scanL_idem_aux s.data.length s.data le_rfl]
  · exact linksSpaceFree_scanL s.data.length s.data le_rfl
  · intro h
    show (⟨scanL s.data⟩ : String) = s
    rw [scanL_of_no_link s.data h]

/-- Witness for claim C9: the no-link clause evaluated on a concrete
string with no markdown link. -/
theorem preprocessMessageContent_idem_w :
    preprocessMessageContent "top 5 HCOs by ghost patients" = "top 5 HCOs by ghost patients" :=
  (preprocessMessageContent_idem "top 5 HCOs by ghost patients").2.2 (by decide)

/-- Claim C8 counterexample: a call of the part_008 handleSendMessage
with an explicit whitespace-only messageText is not guarded — the JS
truthiness test lets any nonempty string through — so on an idle widget
the whitespace message is sent: a network request is issued, refuting
the claim that every call with whitespace-only message text returns
immediately without a request. -/
theorem sendMessage_whitespace_cex :
    (∀ c ∈ (" " : String).data, c.isWhitespace = true) ∧
      (sendPhase1 { messages := [], inputValue := "", isLoading := false,
                    isPDFSearching := false, sessionId := none, error := none }
          (some " ") 0).2
        = some { message := " ", session_id := none } := by
  constructor
  · decide
  · decide

/-- Claim C8 amended: whenever the resolved text — the explicit
messageText when nonempty, otherwise the trimmed input value — is empty,
or a previous request is still in flight, handleSendMessage returns
immediately: no request is issued and the widget state is unchanged; the
argument-less part_007 variant guards on its trimmed input value the
same way.  (An explicit nonempty whitespace-only messageText is truthy
and is sent as-is.) -/
theorem sendMessage_guard :
    (∀ (st : ChatState) (messageText : Option String) (now : Nat),
        resolveText messageText st.inputValue = "" ∨ st.isLoading = true →
        sendPhase1 st messageText now = (st, none))
    ∧ (∀ (st : ChatState) (now : Nat),
        st.inputValue.trim = "" ∨ st.isLoading = true →
        sendPhase1v7 st now = (st, none)) := by
  constructor
  · intro st messageText now h
    simp only [sendPhase1]
    rw [if_pos h]
  · intro st now h
    simp only [sendPhase1v7]
    rw [if_pos h]

/-- Witness for claim C8 amended: an in-flight widget ignores a send. -/
theorem sendMessage_guard_w :
    sendPhase1 { messages := [], inputValue := "hi", isLoading := true,
                 isPDFSearching := false, sessionId := none, error := none } none 5
      = ({ messages := [], inputValue := "hi", isLoading := true,
           isPDFSearching := false, sessionId := none, error := none }, none) :=
  sendMessage_guard.1
    { messages := [], inputValue := "hi", isLoading := true,
      isPDFSearching := false, sessionId := none, error := none } none 5
    (Or.inr rfl)

/-- Claim C10: the widget session id is assigned at most once — it moves
only from none to the session id of the first successful response
carrying a nonempty one, is never overwritten afterwards, and every
request issued carries the current session id in its body. -/
theorem sessionId_assigned_once :
    (∀ (st : ChatState) (e : ChatEvent) (s : String),
        st.sessionId = some s → ((stepWidget st e).1).sessionId = some s)
    ∧ (∀ (st : ChatState) (data : ChatResponseData) (now : Nat),
        st.sessionId = none →
        ((stepWidget st (ChatEvent.success data now)).1).sessionId
          = if data.session_id = "" then none else some data.session_id)
    ∧ (∀ (st : ChatState) (messageText : Option String) (now : Nat) (req : ChatRequest),
        (stepWidget st (ChatEvent.send messageText now)).2 = some req →
        req.session_id = st.sessionId) := by
  refine ⟨?_, ?_, ?_⟩
  · intro st e s h
    cases e with
    | send mt now =>
      simp only [stepWidget, sendPhase1]
      split
      · exact h
      · simpa using h
    | success data now =>
      simp only [stepWidget]
      simp [applySuccess, h]
    | failure now =>
      simp only [stepWidget]
      simp [applyFailure, h]
  · intro st data now h
    simp only [stepWidget]
    by_cases he : data.session_id = ""
    · simp [applySuccess, he, h]
    · simp [applySuccess, he, h]
  · intro st mt now req h
    simp only [stepWidget, sendPhase1] at h
    by_cases hg : resolveText mt st.inputValue = "" ∨ st.isLoading = true
    · rw [if_pos hg] at h
      simp at h
    · rw [if_neg hg] at h
      simp only [] at h
      have h2 := Option.some.inj h
      rw [← h2]

/-- Witness for claim C10: a failure response leaves an assigned
session id in place. -/
theorem sessionId_assigned_once_w :
    ((stepWidget { messages := [], inputValue := "", isLoading := true,
                   isPDFSearching := false, sessionId := some "s-1", error := none }
        (ChatEvent.failure 3)).1).sessionId = some "s-1" :=
  sessionId_assigned_once.1
    { messages := [], inputValue := "", isLoading := true,
      isPDFSearching := false, sessionId := some "s-1", error := none }
    (ChatEvent.failure 3) "s-1" rfl

/-- Claim C4: a response is labelled document-grounded (pdf-response)
exactly when its sources list is nonempty (in both the single- and
multi-message branches), and a query with no ACTIVE documents returns
empty sources, which is therefore labelled as non-grounded. -/
theorem grounded_iff_sources :
    (∀ (sources : Option (List PDFSource)) (content : String),
        mkBotTypeSingle sources content = MessageType.pdfResponse
          ↔ hasSources sources = true)
    ∧ (∀ (sources : Option (List PDFSource)) (content : String),
        mkBotTypeMulti sources content = MessageType.pdfResponse
          ↔ hasSources sources = true)
    ∧ (∀ (remote : String → List String → RemoteIndexClient.RemoteAnswer)
         (nameOf : String → String) (handles : List RemoteFileHandle)
         (text : String),
        (∀ h ∈ handles, h.processingState ≠ ProcState.ACTIVE) →
        (RemoteIndexClient.query remote nameOf handles text).sources = []
        ∧ ∀ content : String,
            mkBotTypeSingle
                (some (RemoteIndexClient.query remote nameOf handles text).sources)
                content
              ≠ MessageType.pdfResponse) := by
  refine ⟨?_, ?_, ?_⟩
  · intro sources content
    unfold mkBotTypeSingle
    by_cases hs : hasSources sources = true
    · simp [hs]
    · by_cases hd : isDataInsight content = true <;> simp [hs, hd]
  · intro sources content
    unfold mkBotTypeMulti
    by_cases hs : hasSources sources = true
    · simp [hs]
    · by_cases hd : isDataInsight content = true ∨ hasMarkdownLink content = true <;>
        simp [hs, hd]
  · intro remote nameOf handles text hactive
    have hrefs : RemoteIndexClient.activeRemoteIds handles = [] := by
      unfold RemoteIndexClient.activeRemoteIds
      have : handles.filter (fun h => h.processingState = ProcState.ACTIVE) = [] := by
        rw [List.filter_eq_nil_iff]
        intro a ha
        simpa using hactive a ha
      rw [this]
      rfl
    have hsrc : (RemoteIndexClient.query remote nameOf handles text).sources = [] := by
      unfold RemoteIndexClient.query
      rw [hrefs]
      simp
    refine ⟨hsrc, ?_⟩
    intro content
    rw [hsrc]
    unfold mkBotTypeSingle
    by_cases hd : isDataInsight content = true <;> simp [hasSources, hd]

/-- Witness for claim C4: at one handle stuck in PROCESSING, the query
reply has no sources and is not labelled pdf-response. -/
theorem grounded_iff_sources_w :
    (RemoteIndexClient.query (fun _ _ => { text := "no documents", citedFileRefs := [] })
        (fun rid => rid)
        [{ remoteId := "f1", identityHash := "h1",
           processingState := ProcState.PROCESSING, remoteUri := "u1",
           lastStateCheck := 0 }]
        "what do the guidelines say").sources = [] :=
  (grounded_iff_sources.2.2 (fun _ _ => { text := "no documents", citedFileRefs := [] })
    (fun rid => rid)
    [{ remoteId := "f1", identityHash := "h1",
       processingState := ProcState.PROCESSING, remoteUri := "u1",
       lastStateCheck := 0 }]
    "what do the guidelines say" (by decide)).1

/-- Claim C2: the RemoteFileHandle state machine only moves forward —
every valid transition strictly increases the progress rank, every
sequence of valid transitions is monotone (so in particular ACTIVE never
returns to PROCESSING), and FAILED is terminal. -/
theorem remoteHandle_state_monotone :
    (∀ a b : ProcState, StepOk a b → stateRank a < stateRank b)
    ∧ (∀ a b : ProcState, Relation.ReflTransGen StepOk a b → stateRank a ≤ stateRank b)
    ∧ ¬ StepOk ProcState.ACTIVE ProcState.PROCESSING
    ∧ (∀ x : ProcState, ¬ StepOk ProcState.FAILED x) := by
  refine ⟨?_, ?_, ?_, ?_⟩
  · intro a b h
    cases h <;> decide
  · intro a b h
    induction h with
    | refl => exact le_rfl
    | tail _ hstep ih =>
      exact le_trans ih (le_of_lt (by cases hstep <;> decide))
  · intro h
    cases h
  · intro x h
    cases h

/-- Witness for claim C2: the upload-success transition strictly
increases the rank. -/
theorem remoteHandle_state_monotone_w :
    stateRank ProcState.UPLOADING < stateRank ProcState.PROCESSING :=
  remoteHandle_state_monotone.1 ProcState.UPLOADING ProcState.PROCESSING
    StepOk.uploadSuccess

/-- Claim C5: when the first M providers rate-limit and the next one
returns a result, the chain returns that provider's result with its
attribution and makes exactly M + 1 provider calls — rate-limited
providers are passed over, no provider is retried, and the providers
after the successful one are never called (the result does not depend on
them). -/
theorem chain_termination :
    ∀ (ps : List Provider) (p : Provider) (qs : List Provider)
      (entity hint : String) (fields : List (String × String)),
      (∀ q ∈ ps, q.lookup entity hint = ProviderOutcome.rateLimited) →
      p.lookup entity hint = ProviderOutcome.found fields →
      runChain (ps ++ p :: qs) entity hint
        = (ChainOutcome.resolved fields p.providerName p.tier, ps.length + 1) := by
  intro ps p qs entity hint fields hrl hp
  induction ps with
  | nil =>
    simp [runChain, hp]
  | cons q ps ih =>
    have hq : q.lookup entity hint = ProviderOutcome.rateLimited := hrl q (by simp)
    have ih' := ih (fun r hr => hrl r (by simp [hr]))
    simp only [List.cons_append, runChain, hq]
    simp only [List.append_eq]
    rw [ih']
    simp [Nat.add_comm]

/-- Witness for claim C5: two rate-limited providers before a successful
one give that provider's result in exactly three calls. -/
theorem chain_termination_w :
    runChain
        [{ providerName := "registry-a", tier := Confidence.PROVIDER_A,
           lookup := fun _ _ => ProviderOutcome.rateLimited },
         { providerName := "registry-b", tier := Confidence.PROVIDER_A,
           lookup := fun _ _ => ProviderOutcome.rateLimited },
         { providerName := "web-search", tier := Confidence.PROVIDER_B_UNVERIFIED,
           lookup := fun _ _ => ProviderOutcome.found [("address", "12 Main St")] }]
        "Memorial Hospital" "TX"
      = (ChainOutcome.resolved [("address", "12 Main St")] "web-search"
          Confidence.PROVIDER_B_UNVERIFIED, 3) :=
  chain_termination
    [{ providerName := "registry-a", tier := Confidence.PROVIDER_A,
       lookup := fun _ _ => ProviderOutcome.rateLimited },
     { providerName := "registry-b", tier := Confidence.PROVIDER_A,
       lookup := fun _ _ => ProviderOutcome.rateLimited }]
    { providerName := "web-search", tier := Confidence.PROVIDER_B_UNVERIFIED,
      lookup := fun _ _ => ProviderOutcome.found [("address", "12 Main St")] }
    [] "Memorial Hospital" "TX" [("address", "12 Main St")]
    (by intro q hq; fin_cases hq <;> rfl) rfl

/-- Claim C6: an enrichment lookup of an entity whose cached record is
not older than the staleness threshold makes zero provider calls,
returns the cached value with confidence CACHED, and leaves the cache
unmutated — a cached record is only refreshed when it is stale. -/
theorem cache_fresh_no_provider_calls :
    ∀ (ps : List Provider) (threshold now : Nat)
      (cache : List EnrichmentRecord) (entity hint : String)
      (r : EnrichmentRecord),
      findRecord cache entity = some r →
      isStale r now threshold = false →
      lookupEnrichment ps threshold now cache entity hint
        = { record := some { r with confidence := Confidence.CACHED },
            providerCalls := 0, cache := cache } := by
  intro ps threshold now cache entity hint r hfind hfresh
  unfold lookupEnrichment
  rw [hfind]
  simp only []
  rw [if_neg (by simp [hfresh])]

/-- Witness for claim C6: a record cached two hours ago under a 24-hour
threshold is served from the cache with zero provider calls. -/
theorem cache_fresh_no_provider_calls_w :
    lookupEnrichment [] 24 50
        [{ entityId := "Memorial Hospital", fields := [("address", "12 Main St")],
           sourceProvider := "registry-a", lastUpdated := 48,
           confidence := Confidence.PROVIDER_A }]
        "Memorial Hospital" "TX"
      = { record := some
            { entityId := "Memorial Hospital", fields := [("address", "12 Main St")],
              sourceProvider := "registry-a", lastUpdated := 48,
              confidence := Confidence.CACHED },
          providerCalls := 0,
          cache :=
            [{ entityId := "Memorial Hospital", fields := [("address", "12 Main St")],
               sourceProvider := "registry-a", lastUpdated := 48,
               confidence := Confidence.PROVIDER_A }] } :=
  cache_fresh_no_provider_calls [] 24 50
    [{ entityId := "Memorial Hospital", fields := [("address", "12 Main St")],
       sourceProvider := "registry-a", lastUpdated := 48,
       confidence := Confidence.PROVIDER_A }]
    "Memorial Hospital" "TX"
    { entityId := "Memorial Hospital", fields := [("address", "12 Main St")],
      sourceProvider := "registry-a", lastUpdated := 48,
      confidence := Confidence.PROVIDER_A }
    (by decide) (by decide)

/-- Claim C7: when the selected handler raises, the dispatcher returns
only the fixed user-safe apology, and the audit log gains an entry with
outcome FAILURE carrying the original detail; and on every input the
reply is either a handler's own reply or that apology — a raw internal
error never reaches the caller. -/
theorem dispatcher_never_propagates :
    ∀ (table : List ((String → Bool) × String × (String → HandlerOutcome)))
      (fallback : String × (String → HandlerOutcome)) (text : String)
      (now : Nat) (log : List AuditEntry),
      (∀ d : String,
        (selectHandler table fallback text).2 text = HandlerOutcome.raised d →
        dispatch table fallback text now log
          = ({ text := apologyText, sources := [] },
             log ++ [{ id := log.length, timestampUtc := now,
                       actor := (selectHandler table fallback text).1,
                       action := "handle", inputsDigest := text,
                       outputsDigest := d, outcome := AuditOutcome.FAILURE }]))
      ∧ (∀ (reply : DispatchReply) (log' : List AuditEntry),
          dispatch table fallback text now log = (reply, log') →
          reply.text = apologyText ∨
            ∃ t s, (selectHandler table fallback text).2 text = HandlerOutcome.ok t s
              ∧ reply = { text := t, sources := s }) := by
  intro table fallback text now log
  constructor
  · intro d hd
    unfold dispatch
    rw [hd]
  · intro reply log' h
    unfold dispatch at h
    cases hh : (selectHandler table fallback text).2 text with
    | ok t s =>
      rw [hh] at h
      right
      exact ⟨t, s, rfl, ((Prod.mk.injEq _ _ _ _).mp h).1.symm⟩
    | raised d =>
      rw [hh] at h
      left
      rw [← ((Prod.mk.injEq _ _ _ _).mp h).1]

/-- Witness for claim C7: a raising handler is converted into the
apology with a FAILURE audit entry preserving the detail. -/
theorem dispatcher_never_propagates_w :
    dispatch [] ("general", fun _ => HandlerOutcome.raised "NullPointerException") "hi" 7 []
      = ({ text := apologyText, sources := [] },
         [{ id := 0, timestampUtc := 7, actor := "general", action := "handle",
            inputsDigest := "hi", outputsDigest := "NullPointerException",
            outcome := AuditOutcome.FAILURE }]) :=
  (dispatcher_never_propagates []
      ("general", fun _ => HandlerOutcome.raised "NullPointerException") "hi" 7 []).1
    "NullPointerException" rfl

/-- Liveness of an identity hash survives appending handles. -/
theorem hasLiveHandle_append (hs more : List RemoteFileHandle) (x : String)
    (h : hasLiveHandle hs x = true) : hasLiveHandle (hs ++ more) x = true := by
  unfold hasLiveHandle at h ⊢
  rw [List.any_append, h]
  rfl

/-- An ACTIVE handle for an identity hash makes it live. -/
theorem hasLiveHandle_of_active (hs : List RemoteFileHandle) (x : String)
    (h : ∃ fh ∈ hs, fh.identityHash = x ∧ fh.processingState = ProcState.ACTIVE) :
    hasLiveHandle hs x = true := by
  obtain ⟨fh, hmem, hid, hst⟩ := h
  unfold hasLiveHandle
  rw [List.any_eq_true]
  exact ⟨fh, hmem, by simp [hid, hst]⟩

/-- One sync step never removes handles, so liveness is preserved. -/
theorem syncStep_live_mono (env : SyncEnv) (acc : SyncAcc) (doc : DocumentRecord)
    (x : String) (h : hasLiveHandle acc.handles x = true) :
    hasLiveHandle (syncStep env false acc doc).handles x = true := by
  unfold syncStep
  by_cases hc : (false = false ∧ hasLiveHandle acc.handles doc.identityHash = true)
  · rw [if_pos hc]
    exact h
  · rw [if_neg hc]
    cases hu : env.upload doc with
    | success rid uri => exact hasLiveHandle_append _ _ _ h
    | failure msg => exact h

/-- After a sync step on a document whose upload succeeds, the document's
identity hash is live. -/
theorem syncStep_live_self (env : SyncEnv) (acc : SyncAcc) (doc : DocumentRecord)
    (hu : (env.upload doc).isSuccess = true) :
    hasLiveHandle (syncStep env false acc doc).handles doc.identityHash = true := by
  unfold syncStep
  by_cases hc : (false = false ∧ hasLiveHandle acc.handles doc.identityHash = true)
  · rw [if_pos hc]
    exact hc.2
  · rw [if_neg hc]
    cases hup : env.upload doc with
    | success rid uri =>
      show hasLiveHandle (acc.handles ++
        [{ remoteId := rid, identityHash := doc.identityHash,
           processingState := ProcState.PROCESSING, remoteUri := uri,
           lastStateCheck := 0 }]) doc.identityHash = true
      unfold hasLiveHandle
      rw [List.any_append]
      simp
    | failure msg =>
      rw [hup] at hu
      simp [UploadResult.isSuccess] at hu

/-- The whole sync fold preserves liveness. -/
theorem syncFold_live_mono (env : SyncEnv) :
    ∀ (docs : List DocumentRecord) (acc : SyncAcc) (x : String),
      hasLiveHandle acc.handles x = true →
      hasLiveHandle (docs.foldl (syncStep env false) acc).handles x = true := by
  intro docs
  induction docs with
  | nil =>
    intro acc x h
    exact h
  | cons d ds ih =>
    intro acc x h
    rw [List.foldl_cons]
    exact ih (syncStep env false acc d) x (syncStep_live_mono env acc d x h)

/-- After a sync in which every upload succeeds, every scanned document
has a live handle. -/
theorem syncFold_all_live (env : SyncEnv) :
    ∀ (docs : List DocumentRecord) (acc : SyncAcc),
      (∀ d ∈ docs, (env.upload d).isSuccess = true) →
      ∀ d ∈ docs,
        hasLiveHandle (docs.foldl (syncStep env false) acc).handles
          d.identityHash = true := by
  intro docs
  induction docs with
  | nil =>
    intro acc _ d hd
    simp at hd
  | cons d0 ds ih =>
    intro acc hok d hd
    rw [List.foldl_cons]
    rcases List.mem_cons.mp hd with hd0 | hds
    · rw [hd0]
      exact syncFold_live_mono env ds (syncStep env false acc d0) _
        (syncStep_live_self env acc d0 (hok d0 (by simp)))
    · exact ih (syncStep env false acc d0)
        (fun e he => hok e (List.mem_cons_of_mem d0 he)) d hds

/-- A sync over documents that all already have live handles only counts
skips and changes nothing else: neither the handles nor the other
counters. -/
theorem syncFold_all_skip (env : SyncEnv) :
    ∀ (docs : List DocumentRecord) (acc : SyncAcc),
      (∀ d ∈ docs, hasLiveHandle acc.handles d.identityHash = true) →
      docs.foldl (syncStep env false) acc
        = { report := { acc.report with skipped := acc.report.skipped + docs.length },
            handles := acc.handles } := by
  intro docs
  induction docs with
  | nil =>
    intro acc _
    simp
  | cons d ds ih =>
    intro acc hall
    rw [List.foldl_cons]
    have hstep : syncStep env false acc d
        = { acc with report := { acc.report with skipped := acc.report.skipped + 1 } } := by
      unfold syncStep
      rw [if_pos ⟨rfl, hall d (by simp)⟩]
    rw [hstep]
    rw [ih { acc with report := { acc.report with skipped := acc.report.skipped + 1 } }
      (fun e he => hall e (List.mem_cons_of_mem d he))]
    simp [List.length_cons]
    omega

/-- Claim C1: with no filesystem changes between the calls (and every
upload of the first call succeeding), a second sync uploads nothing and
fails nothing, counts every scanned document as skipped, and creates
zero new RemoteFileHandles — every document's identity hash already has
an ACTIVE or PROCESSING handle after the first call. -/
theorem sync_idempotent :
    ∀ (env : SyncEnv) (docs : List DocumentRecord) (handles : List RemoteFileHandle),
      (∀ d ∈ docs, (env.upload d).isSuccess = true) →
      (sync env false docs (sync env false docs handles).handles).report
          = { uploaded := 0, skipped := docs.length, failed := 0, errors := [] }
      ∧ (sync env false docs (sync env false docs handles).handles).handles
          = (sync env false docs handles).handles := by
  intro env docs handles hok
  have hlive : ∀ d ∈ docs,
      hasLiveHandle (sync env false docs handles).handles d.identityHash = true := by
    intro d hd
    exact syncFold_all_live env docs _ hok d hd
  have h2 := syncFold_all_skip env docs
    { report := { uploaded := 0, skipped := 0, failed := 0, errors := [] },
      handles := (sync env false docs handles).handles }
    (by intro d hd; exact hlive d hd)
  constructor
  · show (docs.foldl (syncStep env false)
      { report := { uploaded := 0, skipped := 0, failed := 0, errors := [] },
        handles := (sync env false docs handles).handles }).report = _
    rw [h2]
    simp
  · show (docs.foldl (syncStep env false)
      { report := { uploaded := 0, skipped := 0, failed := 0, errors := [] },
        handles := (sync env false docs handles).handles }).handles = _
    rw [h2]

/-- Witness for claim C1: re-syncing one document right after a
successful sync skips it and adds no handle. -/
theorem sync_idempotent_w :
    (sync
        { upload := fun d =>
            UploadResult.success ("r-" ++ d.identityHash) ("u-" ++ d.identityHash) }
        false
        [{ identityHash := "h1", displayName := "guideline.pdf",
           category := DocCategory.policy, sizeBytes := 10,
           localPath := "/docs/guideline.pdf", lastModified := 0 }]
        (sync
          { upload := fun d =>
              UploadResult.success ("r-" ++ d.identityHash) ("u-" ++ d.identityHash) }
          false
          [{ identityHash := "h1", displayName := "guideline.pdf",
             category := DocCategory.policy, sizeBytes := 10,
             localPath := "/docs/guideline.pdf", lastModified := 0 }]
          []).handles).report
      = { uploaded := 0, skipped := 1, failed := 0, errors := [] } :=
  (sync_idempotent
    { upload := fun d =>
        UploadResult.success ("r-" ++ d.identityHash) ("u-" ++ d.identityHash) }
    [{ identityHash := "h1", displayName := "guideline.pdf",
       category := DocCategory.policy, sizeBytes := 10,
       localPath := "/docs/guideline.pdf", lastModified := 0 }]
    [] (by decide)).1

/-- Claim C3: deduplication is by content, not by name — the identity
hash of a scanned file depends only on its bytes and not on its name, a
document whose identity hash already has a live handle is skipped and
the handle table is untouched, and a store with one new document plus
one already-ACTIVE document re-added under a new name syncs to uploaded
1, skipped 1, failed 0. -/
theorem dedup_by_content :
    (∀ (hashFn : List Nat → String) (f g : DocumentStore.LocalFile),
        f.bytes = g.bytes →
        (mkDocumentRecord hashFn f).identityHash
          = (mkDocumentRecord hashFn g).identityHash)
    ∧ (∀ (env : SyncEnv) (handles : List RemoteFileHandle) (d : DocumentRecord),
        hasLiveHandle handles d.identityHash = true →
        sync env false [d] handles
          = { report := { uploaded := 0, skipped := 1, failed := 0, errors := [] },
              handles := handles })
    ∧ (∀ (hashFn : List Nat → String) (env : SyncEnv)
         (handles : List RemoteFileHandle) (fNew fOld : DocumentStore.LocalFile),
        hasLiveHandle handles (hashFn fNew.bytes) = false →
        (env.upload (mkDocumentRecord hashFn fNew)).isSuccess = true →
        (∃ fh ∈ handles, fh.identityHash = hashFn fOld.bytes ∧
            fh.processingState = ProcState.ACTIVE) →
        (sync env false [mkDocumentRecord hashFn fNew, mkDocumentRecord hashFn fOld]
            handles).report
          = { uploaded := 1, skipped := 1, failed := 0, errors := [] }) := by
  refine ⟨?_, ?_, ?_⟩
  · intro hashFn f g h
    unfold mkDocumentRecord
    simp [h]
  · intro env handles d hlive
    have h2 := syncFold_all_skip env [d]
      { report := { uploaded := 0, skipped := 0, failed := 0, errors := [] },
        handles := handles }
      (by intro e he; rw [List.mem_singleton.mp he]; exact hlive)
    show List.foldl (syncStep env false)
      { report := { uploaded := 0, skipped := 0, failed := 0, errors := [] },
        handles := handles } [d] = _
    rw [h2]
    simp
  · intro hashFn env handles fNew fOld hnew hup hactive
    obtain ⟨rid, uri, hupd⟩ : ∃ rid uri,
        env.upload (mkDocumentRecord hashFn fNew) = UploadResult.success rid uri := by
      cases h : env.upload (mkDocumentRecord hashFn fNew) with
      | success a b => exact ⟨a, b, rfl⟩
      | failure m => rw [h] at hup; simp [UploadResult.isSuccess] at hup
    unfold sync
    rw [List.foldl_cons, List.foldl_cons, List.foldl_nil]
    have hstep1 : syncStep env false
        { report := { uploaded := 0, skipped := 0, failed := 0, errors := [] },
          handles := handles } (mkDocumentRecord hashFn fNew)
        = { report := { uploaded := 1, skipped := 0, failed := 0, errors := [] },
            handles := handles ++
              [{ remoteId := rid, identityHash := hashFn fNew.bytes,
                 processingState := ProcState.PROCESSING, remoteUri := uri,
                 lastStateCheck := 0 }] } := by
      unfold syncStep
      rw [if_neg (by simp [mkDocumentRecord, hnew])]
      rw [hupd]
      simp [mkDocumentRecord]
    rw [hstep1]
    have hliveOld : hasLiveHandle
        (handles ++
          [{ remoteId := rid, identityHash := hashFn fNew.bytes,
             processingState := ProcState.PROCESSING, remoteUri := uri,
             lastStateCheck := 0 }]) (hashFn fOld.bytes) = true :=
      hasLiveHandle_append _ _ _ (hasLiveHandle_of_active handles _ hactive)
    have hstep2 : syncStep env false
        { report := { uploaded := 1, skipped := 0, failed := 0, errors := [] },
          handles := handles ++
            [{ remoteId := rid, identityHash := hashFn fNew.bytes,
               processingState := ProcState.PROCESSING, remoteUri := uri,
               lastStateCheck := 0 }] } (mkDocumentRecord hashFn fOld)
        = { report := { uploaded := 1, skipped := 1, failed := 0, errors := [] },
            handles := handles ++
              [{ remoteId := rid, identityHash := hashFn fNew.bytes,
                 processingState := ProcState.PROCESSING, remoteUri := uri,
                 lastStateCheck := 0 }] } := by
      unfold syncStep
      rw [if_pos ⟨rfl, by simpa [mkDocumentRecord] using hliveOld⟩]
    rw [hstep2]

/-- Witness for claim C3: one new file plus a re-named copy of an
already-ACTIVE document sync to uploaded 1, skipped 1, failed 0. -/
theorem dedup_by_content_w :
    (sync { upload := fun _ => UploadResult.success "r1" "u1" } false
        [mkDocumentRecord (fun b => if b = [1] then "hA" else "hB")
           { fileName := "guideline.pdf", path := "/docs/guideline.pdf",
             category := DocCategory.policy, bytes := [1], modifiedTime := 0 },
         mkDocumentRecord (fun b => if b = [1] then "hA" else "hB")
           { fileName := "policy-renamed.pdf", path := "/docs/policy-renamed.pdf",
             category := DocCategory.policy, bytes := [2], modifiedTime := 0 }]
        [{ remoteId := "r0", identityHash := "hB",
           processingState := ProcState.ACTIVE, remoteUri := "u0",
           lastStateCheck := 0 }]).report
      = { uploaded := 1, skipped := 1, failed := 0, errors := [] } :=
  dedup_by_content.2.2 (fun b => if b = [1] then "hA" else "hB")
    { upload := fun _ => UploadResult.success "r1" "u1" }
    [{ remoteId := "r0", identityHash := "hB",
       processingState := ProcState.ACTIVE, remoteUri := "u0",
       lastStateCheck := 0 }]
    { fileName := "guideline.pdf", path := "/docs/guideline.pdf",
      category := DocCategory.policy, bytes := [1], modifiedTime := 0 }
    { fileName := "policy-renamed.pdf", path := "/docs/policy-renamed.pdf",
      category := DocCategory.policy, bytes := [2], modifiedTime := 0 }
    (by decide) (by decide) (by decide)
